import Mathlib

/-!
Shallow embedding of the password generator (`main.py`, class `passwordGenerator`)
and its strength analyzer, together with proofs of the specification claims.

Randomness model: `secrets` draws are modelled by a tape `g : ℕ → ℕ`; the
`k`-th primitive draw reads `g k`.  `secrets.choice seq` becomes
`seq.getD (g k % seq.length) '?'` and `secrets.randbelow n` becomes `g k % n`,
so every modelled draw is in range for every tape.  Character classification
(`str.isupper`, `str.islower`, `str.isdigit`) is modelled on the ASCII range,
which is exact on the ASCII strings this program produces and consumes.
-/

namespace PwGen

/-- Python's `string.ascii_uppercase` (the `uppercase` entry of `self.char_sets`). -/
def uppercaseSet : List Char := "ABCDEFGHIJKLMNOPQRSTUVWXYZ".toList

/-- Python's `string.ascii_lowercase` (the `lowercase` entry of `self.char_sets`). -/
def lowercaseSet : List Char := "abcdefghijklmnopqrstuvwxyz".toList

/-- Python's `string.digits` (the `numbers` entry of `self.char_sets`). -/
def numbersSet : List Char := "0123456789".toList

/-- The `symbols` entry of `self.char_sets`. -/
def symbolsSet : List Char := "!@#$%^&*()_+-=[]\x7b\x7d|;:,.<>?".toList

/-- The ambiguous characters removed when `excludeAmbiguous` is set. -/
def ambiguousChars : List Char := "0O1lI|\x60".toList

/-- The dictionary `self.char_sets` built in `__init__`, as a record. -/
structure CharTable where
  uppercase : List Char
  lowercase : List Char
  numbers : List Char
  symbols : List Char
deriving DecidableEq, Repr

/-- The canonical table installed by `__init__`. -/
def initTable : CharTable :=
  { uppercase := uppercaseSet, lowercase := lowercaseSet
    numbers := numbersSet, symbols := symbolsSet }

/-- One filtering step of line 49: keep the characters not in `ambiguous`. -/
def filterAmb (s : List Char) : List Char :=
  s.filter (fun c => !ambiguousChars.contains c)

/-- Lines 43-49: the local `charSets` value — a copy of the table, with every
entry filtered when `excludeAmbiguous` is set. -/
def effTable (excl : Bool) (t : CharTable) : CharTable :=
  if excl then
    { uppercase := filterAmb t.uppercase, lowercase := filterAmb t.lowercase
      numbers := filterAmb t.numbers, symbols := filterAmb t.symbols }
  else t

/-- The keyword arguments of `generatePassword`. -/
structure Config where
  length : Int
  useUppercase : Bool
  useLowercase : Bool
  useNumbers : Bool
  useSymbols : Bool
  excludeAmbiguous : Bool

/-- One `secrets.choice s` draw, reading the tape at position `k`. -/
def choiceChar (g : ℕ → ℕ) (k : ℕ) (s : List Char) : Char :=
  s.getD (g k % s.length) '?'

/-- The local mutable state of lines 40-65: the pool string, the
`requiredChars` list, and the next tape position. -/
structure GenState where
  pool : List Char
  required : List Char
  k : ℕ

/-- One of the four `if use…` blocks (lines 51-65): append the class to the
pool and draw one required character from it. -/
def addClass (g : ℕ → ℕ) (flag : Bool) (s : List Char) (st : GenState) : GenState :=
  if flag then
    { pool := st.pool ++ s, required := st.required ++ [choiceChar g st.k s], k := st.k + 1 }
  else st

/-- Lines 40-65 composed, in source order (uppercase, lowercase, numbers,
symbols). -/
def assemble (g : ℕ → ℕ) (cfg : Config) (t : CharTable) : GenState :=
  let cs := effTable cfg.excludeAmbiguous t
  addClass g cfg.useSymbols cs.symbols
    (addClass g cfg.useNumbers cs.numbers
      (addClass g cfg.useLowercase cs.lowercase
        (addClass g cfg.useUppercase cs.uppercase ⟨[], [], 0⟩)))

/-- Lines 74-76: `remainingLength` independent uniform draws from the pool. -/
def fillChars (g : ℕ → ℕ) (k : ℕ) (pool : List Char) (n : ℕ) : List Char :=
  (List.range n).map (fun t => choiceChar g (k + t) pool)

/-- The simultaneous swap `l[i], l[j] = l[j], l[i]` (line 81): both reads
happen on the original list. -/
def swapList (l : List Char) (i j : ℕ) : List Char :=
  (l.set i (l.getD j '?')).set j (l.getD i '?')

/-- Lines 79-81: the Fisher–Yates loop, iterating the swap index from the
argument down to 1; `j = secrets.randbelow(i + 1)` is `g k % (i + 1)`. -/
def fyStep (g : ℕ → ℕ) (k : ℕ) (l : List Char) : ℕ → List Char
  | 0 => l
  | i+1 => fyStep g (k+1) (swapList l (i+1) (g k % (i+2))) i

/-- The whole shuffle of lines 79-81, starting at `len(passwordChars) - 1`. -/
def fyShuffle (g : ℕ → ℕ) (k : ℕ) (l : List Char) : List Char :=
  fyStep g k l (l.length - 1)

def lengthErr : String := "Password length must be between 4 and 128 characters"

def classErr : String := "At least one character type must be selected"

/-- Lines 71-76: `passwordChars = requiredChars[:]` extended by
`remainingLength = length - len(requiredChars)` pool draws. -/
def builtChars (t : CharTable) (g : ℕ → ℕ) (cfg : Config) : List Char :=
  let st := assemble g cfg t
  let rem := (cfg.length - (st.required.length : Int)).toNat
  st.required ++ fillChars g st.k st.pool rem

/-- Lines 79-81 applied to `passwordChars`; the shuffle draws start where the
filling draws stopped. -/
def shuffledChars (t : CharTable) (g : ℕ → ℕ) (cfg : Config) : List Char :=
  let st := assemble g cfg t
  let rem := (cfg.length - (st.required.length : Int)).toNat
  fyShuffle g (st.k + rem) (builtChars t g cfg)

/-- The body of `generatePassword`, reading the table `t` (the value of `self.char_sets`).
Line 36 checks the length first; line 67 checks the pool; lines 71-83 build
`requiredChars ++ fill` and shuffle. -/
def generatePasswordT (t : CharTable) (g : ℕ → ℕ) (cfg : Config) : Except String String :=
  if cfg.length < 4 ∨ 128 < cfg.length then .error lengthErr
  else if (assemble g cfg t).pool = [] then .error classErr
  else .ok (String.mk (shuffledChars t g cfg))

/-- The method together with the object state: `self.char_sets` is copied at
line 43 and only the copy is filtered, so the field is returned unchanged. -/
def generatePasswordSt (t : CharTable) (g : ℕ → ℕ) (cfg : Config) :
    Except String String × CharTable :=
  (generatePasswordT t g cfg, t)

/-- The call `generatePassword` on a generator fresh from `__init__`. -/
def generatePassword (g : ℕ → ℕ) (cfg : Config) : Except String String :=
  (generatePasswordSt initTable g cfg).1

/-- Lines 87-96: the character-space size scanned from the password. -/
def charSpace (p : String) : ℕ :=
  (if p.toList.any (fun c => c.isUpper) then 26 else 0) +
  (if p.toList.any (fun c => c.isLower) then 26 else 0) +
  (if p.toList.any (fun c => c.isDigit) then 10 else 0) +
  (if p.toList.any (fun c => initTable.symbols.contains c) then initTable.symbols.length else 0)

/-- Lines 85-102: `len(password) * math.log2(charSpace)`, and `0.0` when the
space is empty. -/
noncomputable def calculateEntropy (p : String) : ℝ :=
  if charSpace p = 0 then 0 else (p.length : ℝ) * Real.logb 2 (charSpace p)

/-- The dictionary returned by `assessStrength`. -/
structure StrengthReport where
  strength : String
  score : ℕ
  entropy : ℝ
  length : ℕ
  character_types : ℕ
  has_uppercase : Bool
  has_lowercase : Bool
  has_numbers : Bool
  has_symbols : Bool

open Classical in
/-- Lines 104-143.  The `entropy` field models `round(e, 2)` as rounding to an
integer number of hundredths (the claims never inspect this field). -/
noncomputable def assessStrength (p : String) : StrengthReport :=
  let e := calculateEntropy p
  let sc : String × ℕ :=
    if 80 ≤ e then ("Very Strong", 100)
    else if 60 ≤ e then ("Strong", 80)
    else if 40 ≤ e then ("Moderate", 60)
    else if 25 ≤ e then ("Weak", 40)
    else ("Very Weak", 20)
  let hasUpper := p.toList.any (fun c => c.isUpper)
  let hasLower := p.toList.any (fun c => c.isLower)
  let hasDigits := p.toList.any (fun c => c.isDigit)
  let hasSymbols := p.toList.any (fun c => initTable.symbols.contains c)
  { strength := sc.1
    score := sc.2
    entropy := (round (100 * e) : ℝ) / 100
    length := p.length
    character_types :=
      (if hasUpper then 1 else 0) + (if hasLower then 1 else 0) +
      (if hasDigits then 1 else 0) + (if hasSymbols then 1 else 0)
    has_uppercase := hasUpper
    has_lowercase := hasLower
    has_numbers := hasDigits
    has_symbols := hasSymbols }

/-- Lines 145-146: `count` successive calls to `generatePassword`; the tape
`gs t` drives the `t`-th call, so distinct calls share no state.  There is no
check on `count`: `range(count)` of a non-positive `count` is empty. -/
def generateMultiple (gs : ℕ → ℕ → ℕ) (count : Int) (cfg : Config) :
    Except String (List String) :=
  (List.range count.toNat).mapM (fun t => generatePassword (gs t) cfg)

/-- The all-classes boundary configuration of §8 property 9. -/
def cfgFour : Config :=
  { length := 4, useUppercase := true, useLowercase := true
    useNumbers := true, useSymbols := true, excludeAmbiguous := false }

/-- The character space as §4.3 of the specification words it (existential
scans over the password), with the symbol summand being the actual
cardinality, 26, of the symbol class. -/
def specCharSpace (p : String) : ℕ :=
  (if ∃ c ∈ p.toList, c.isUpper = true then 26 else 0) +
  (if ∃ c ∈ p.toList, c.isLower = true then 26 else 0) +
  (if ∃ c ∈ p.toList, c.isDigit = true then 10 else 0) +
  (if ∃ c ∈ p.toList, c ∈ symbolsSet then 26 else 0)

/-! ### Basic facts about the random primitives and the shuffle -/

lemma choiceChar_mem (g : ℕ → ℕ) (k : ℕ) {s : List Char} (h : s ≠ []) :
    choiceChar g k s ∈ s := by
  have hl : 0 < s.length := List.length_pos.mpr h
  have hm : g k % s.length < s.length := Nat.mod_lt _ hl
  rw [choiceChar, List.getD_eq_getElem s '?' hm]
  exact List.getElem_mem hm

lemma getD_cons_set_perm (d a : Char) :
    ∀ (t : List Char) (n : ℕ), n < t.length →
      List.Perm (t.getD n d :: t.set n a) (a :: t) := by
  intro t
  induction t with
  | nil => intro n h; simp at h
  | cons b t' ih =>
    intro n h
    cases n with
    | zero => simpa using List.Perm.swap a b t'
    | succ n =>
      simp only [List.getD_cons_succ, List.set_cons_succ]
      have h' : n < t'.length := by simpa using h
      exact ((List.Perm.swap b (t'.getD n d) (t'.set n a)).trans
        ((ih n h').cons b)).trans (List.Perm.swap a b t')

lemma swapList_perm : ∀ (l : List Char) (i j : ℕ), i < l.length → j < l.length →
    List.Perm (swapList l i j) l := by
  intro l
  induction l with
  | nil => intro i j h _; simp at h
  | cons a t ih =>
    intro i j hi hj
    cases i with
    | zero =>
      cases j with
      | zero => simp [swapList]
      | succ n =>
        have hn : n < t.length := by simpa using hj
        simp only [swapList, List.getD_cons_zero, List.getD_cons_succ,
          List.set_cons_zero, List.set_cons_succ]
        exact getD_cons_set_perm '?' a t n hn
    | succ m =>
      have hm : m < t.length := by simpa using hi
      cases j with
      | zero =>
        simp only [swapList, List.getD_cons_zero, List.getD_cons_succ,
          List.set_cons_zero, List.set_cons_succ]
        exact getD_cons_set_perm '?' a t m hm
      | succ n =>
        have hn : n < t.length := by simpa using hj
        simp only [swapList, List.getD_cons_succ, List.set_cons_succ]
        exact List.Perm.cons a (by simpa [swapList] using ih m n hm hn)

lemma swapList_length (l : List Char) (i j : ℕ) :
    (swapList l i j).length = l.length := by
  simp [swapList]

lemma fyStep_length (g : ℕ → ℕ) :
    ∀ (i k : ℕ) (l : List Char), (fyStep g k l i).length = l.length := by
  intro i
  induction i with
  | zero => intro k l; rfl
  | succ i ih => intro k l; simp only [fyStep]; rw [ih, swapList_length]

lemma fyStep_perm (g : ℕ → ℕ) :
    ∀ (i k : ℕ) (l : List Char), i < l.length → List.Perm (fyStep g k l i) l := by
  intro i
  induction i with
  | zero => intro k l _; exact List.Perm.refl l
  | succ i ih =>
    intro k l h
    have hj : g k % (i + 2) < l.length :=
      lt_of_lt_of_le (Nat.mod_lt _ (by omega)) (by omega)
    have hswap := swapList_perm l (i + 1) (g k % (i + 2)) h hj
    have hi : i < (swapList l (i + 1) (g k % (i + 2))).length := by
      rw [swapList_length]; omega
    simp only [fyStep]
    exact (ih (k + 1) _ hi).trans hswap

lemma fyShuffle_perm (g : ℕ → ℕ) (k : ℕ) (l : List Char) :
    List.Perm (fyShuffle g k l) l := by
  cases l with
  | nil => simp [fyShuffle, fyStep]
  | cons a t => exact fyStep_perm g ((a :: t).length - 1) k (a :: t) (by simp)

/-! ### Pool assembly -/

lemma addClass_pool (g : ℕ → ℕ) (f : Bool) (s : List Char) (st : GenState) :
    (addClass g f s st).pool = st.pool ++ (if f then s else []) := by
  cases f <;> simp [addClass]

lemma addClass_required (g : ℕ → ℕ) (f : Bool) (s : List Char) (st : GenState) :
    (addClass g f s st).required =
      st.required ++ (if f then [choiceChar g st.k s] else []) := by
  cases f <;> simp [addClass]

lemma addClass_required_length (g : ℕ → ℕ) (f : Bool) (s : List Char) (st : GenState) :
    (addClass g f s st).required.length = st.required.length + (if f then 1 else 0) := by
  cases f <;> simp [addClass]

lemma addClass_required_mono (g : ℕ → ℕ) (f : Bool) (s : List Char) (st : GenState) :
    st.required ⊆ (addClass g f s st).required := by
  cases f with
  | false => simp [addClass]
  | true => exact List.subset_append_left _ _

lemma addClass_required_self (g : ℕ → ℕ) (s : List Char) (st : GenState) (hs : s ≠ []) :
    ∃ c ∈ (addClass g true s st).required, c ∈ s := by
  refine ⟨choiceChar g st.k s, ?_, choiceChar_mem g st.k hs⟩
  simp [addClass]

lemma addClass_req_sub_pool (g : ℕ → ℕ) (f : Bool) (s : List Char) (st : GenState)
    (hs : s ≠ []) (h : st.required ⊆ st.pool) :
    (addClass g f s st).required ⊆ (addClass g f s st).pool := by
  cases f with
  | false => simpa [addClass] using h
  | true =>
    intro c hc
    simp only [addClass, if_pos, List.mem_append, List.mem_singleton] at hc ⊢
    rcases hc with hc | hc
    · exact Or.inl (h hc)
    · exact Or.inr (hc ▸ choiceChar_mem g st.k hs)

lemma effTable_init_ne (excl : Bool) :
    (effTable excl initTable).uppercase ≠ [] ∧ (effTable excl initTable).lowercase ≠ [] ∧
    (effTable excl initTable).numbers ≠ [] ∧ (effTable excl initTable).symbols ≠ [] := by
  cases excl <;> exact ⟨by decide, by decide, by decide, by decide⟩

lemma effTable_sub (excl : Bool) (t : CharTable) :
    (effTable excl t).uppercase ⊆ t.uppercase ∧ (effTable excl t).lowercase ⊆ t.lowercase ∧
    (effTable excl t).numbers ⊆ t.numbers ∧ (effTable excl t).symbols ⊆ t.symbols := by
  cases excl <;>
    exact ⟨by simp [effTable, filterAmb, List.filter_subset],
      by simp [effTable, filterAmb, List.filter_subset],
      by simp [effTable, filterAmb, List.filter_subset],
      by simp [effTable, filterAmb, List.filter_subset]⟩

lemma assemble_pool (g : ℕ → ℕ) (cfg : Config) (t : CharTable) :
    (assemble g cfg t).pool =
      (if cfg.useUppercase then (effTable cfg.excludeAmbiguous t).uppercase else []) ++
      ((if cfg.useLowercase then (effTable cfg.excludeAmbiguous t).lowercase else []) ++
       ((if cfg.useNumbers then (effTable cfg.excludeAmbiguous t).numbers else []) ++
        (if cfg.useSymbols then (effTable cfg.excludeAmbiguous t).symbols else []))) := by
  simp [assemble, addClass_pool, List.append_assoc]

lemma assemble_required_length (g : ℕ → ℕ) (cfg : Config) (t : CharTable) :
    (assemble g cfg t).required.length =
      (((if cfg.useUppercase then 1 else 0) + (if cfg.useLowercase then 1 else 0)) +
       (if cfg.useNumbers then 1 else 0)) + (if cfg.useSymbols then 1 else 0) := by
  simp [assemble, addClass_required_length]

lemma assemble_required_length_le (g : ℕ → ℕ) (cfg : Config) (t : CharTable) :
    (assemble g cfg t).required.length ≤ 4 := by
  rw [assemble_required_length]
  split_ifs <;> omega

lemma assemble_req_sub_pool (g : ℕ → ℕ) (cfg : Config) :
    (assemble g cfg initTable).required ⊆ (assemble g cfg initTable).pool := by
  have h := effTable_init_ne cfg.excludeAmbiguous
  apply addClass_req_sub_pool _ _ _ _ h.2.2.2
  apply addClass_req_sub_pool _ _ _ _ h.2.2.1
  apply addClass_req_sub_pool _ _ _ _ h.2.1
  apply addClass_req_sub_pool _ _ _ _ h.1
  intro c hc
  simp at hc

lemma assemble_pool_ne (g : ℕ → ℕ) (cfg : Config)
    (hsome : cfg.useUppercase = true ∨ cfg.useLowercase = true ∨
      cfg.useNumbers = true ∨ cfg.useSymbols = true) :
    (assemble g cfg initTable).pool ≠ [] := by
  have h := effTable_init_ne cfg.excludeAmbiguous
  intro heq
  rw [assemble_pool] at heq
  rcases List.append_eq_nil.mp heq with ⟨e1, e2⟩
  rcases List.append_eq_nil.mp e2 with ⟨e3, e4⟩
  rcases List.append_eq_nil.mp e4 with ⟨e5, e6⟩
  rcases hsome with h1 | h1 | h1 | h1
  · rw [h1] at e1; exact h.1 (by simpa using e1)
  · rw [h1] at e3; exact h.2.1 (by simpa using e3)
  · rw [h1] at e5; exact h.2.2.1 (by simpa using e5)
  · rw [h1] at e6; exact h.2.2.2 (by simpa using e6)

lemma assemble_all_false (g : ℕ → ℕ) (cfg : Config) (t : CharTable)
    (h1 : cfg.useUppercase = false) (h2 : cfg.useLowercase = false)
    (h3 : cfg.useNumbers = false) (h4 : cfg.useSymbols = false) :
    assemble g cfg t = ⟨[], [], 0⟩ := by
  simp [assemble, addClass, h1, h2, h3, h4]

/-! ### Per-class required characters and pool membership -/

lemma assemble_required_upper (g : ℕ → ℕ) (cfg : Config) (hu : cfg.useUppercase = true) :
    ∃ c ∈ (assemble g cfg initTable).required,
      c ∈ (effTable cfg.excludeAmbiguous initTable).uppercase := by
  obtain ⟨c, hc, hcs⟩ := addClass_required_self g
    (effTable cfg.excludeAmbiguous initTable).uppercase ⟨[], [], 0⟩
    (effTable_init_ne cfg.excludeAmbiguous).1
  refine ⟨c, ?_, hcs⟩
  simp only [assemble]
  apply addClass_required_mono
  apply addClass_required_mono
  apply addClass_required_mono
  rw [hu]
  exact hc

lemma assemble_required_lower (g : ℕ → ℕ) (cfg : Config) (hl : cfg.useLowercase = true) :
    ∃ c ∈ (assemble g cfg initTable).required,
      c ∈ (effTable cfg.excludeAmbiguous initTable).lowercase := by
  obtain ⟨c, hc, hcs⟩ := addClass_required_self g
    (effTable cfg.excludeAmbiguous initTable).lowercase
    (addClass g cfg.useUppercase (effTable cfg.excludeAmbiguous initTable).uppercase ⟨[], [], 0⟩)
    (effTable_init_ne cfg.excludeAmbiguous).2.1
  refine ⟨c, ?_, hcs⟩
  simp only [assemble]
  apply addClass_required_mono
  apply addClass_required_mono
  rw [hl]
  exact hc

lemma assemble_required_numbers (g : ℕ → ℕ) (cfg : Config) (hn : cfg.useNumbers = true) :
    ∃ c ∈ (assemble g cfg initTable).required,
      c ∈ (effTable cfg.excludeAmbiguous initTable).numbers := by
  obtain ⟨c, hc, hcs⟩ := addClass_required_self g
    (effTable cfg.excludeAmbiguous initTable).numbers
    (addClass g cfg.useLowercase (effTable cfg.excludeAmbiguous initTable).lowercase
      (addClass g cfg.useUppercase (effTable cfg.excludeAmbiguous initTable).uppercase ⟨[], [], 0⟩))
    (effTable_init_ne cfg.excludeAmbiguous).2.2.1
  refine ⟨c, ?_, hcs⟩
  simp only [assemble]
  apply addClass_required_mono
  rw [hn]
  exact hc

lemma assemble_required_symbols (g : ℕ → ℕ) (cfg : Config) (hs : cfg.useSymbols = true) :
    ∃ c ∈ (assemble g cfg initTable).required,
      c ∈ (effTable cfg.excludeAmbiguous initTable).symbols := by
  obtain ⟨c, hc, hcs⟩ := addClass_required_self g
    (effTable cfg.excludeAmbiguous initTable).symbols
    (addClass g cfg.useNumbers (effTable cfg.excludeAmbiguous initTable).numbers
      (addClass g cfg.useLowercase (effTable cfg.excludeAmbiguous initTable).lowercase
        (addClass g cfg.useUppercase (effTable cfg.excludeAmbiguous initTable).uppercase
          ⟨[], [], 0⟩)))
    (effTable_init_ne cfg.excludeAmbiguous).2.2.2
  refine ⟨c, ?_, hcs⟩
  simp only [assemble]
  rw [hs]
  exact hc

lemma mem_assemble_pool (g : ℕ → ℕ) (cfg : Config) (c : Char)
    (hc : c ∈ (assemble g cfg initTable).pool) :
    (cfg.useUppercase = true ∧ c ∈ (effTable cfg.excludeAmbiguous initTable).uppercase) ∨
    (cfg.useLowercase = true ∧ c ∈ (effTable cfg.excludeAmbiguous initTable).lowercase) ∨
    (cfg.useNumbers = true ∧ c ∈ (effTable cfg.excludeAmbiguous initTable).numbers) ∨
    (cfg.useSymbols = true ∧ c ∈ (effTable cfg.excludeAmbiguous initTable).symbols) := by
  rw [assemble_pool] at hc
  simp only [List.mem_append] at hc
  rcases hc with h | h | h | h
  · cases hu : cfg.useUppercase with
    | false => rw [hu] at h; simp at h
    | true => rw [hu] at h; exact Or.inl ⟨rfl, by simpa using h⟩
  · cases hl : cfg.useLowercase with
    | false => rw [hl] at h; simp at h
    | true => rw [hl] at h; exact Or.inr (Or.inl ⟨rfl, by simpa using h⟩)
  · cases hn : cfg.useNumbers with
    | false => rw [hn] at h; simp at h
    | true => rw [hn] at h; exact Or.inr (Or.inr (Or.inl ⟨rfl, by simpa using h⟩))
  · cases hs : cfg.useSymbols with
    | false => rw [hs] at h; simp at h
    | true => rw [hs] at h; exact Or.inr (Or.inr (Or.inr ⟨rfl, by simpa using h⟩))

/-! ### The assembled password -/

lemma fillChars_sub (g : ℕ → ℕ) (k : ℕ) (pool : List Char) (n : ℕ) (hp : pool ≠ []) :
    fillChars g k pool n ⊆ pool := by
  intro c hc
  simp only [fillChars, List.mem_map] at hc
  obtain ⟨t, _, ht⟩ := hc
  exact ht ▸ choiceChar_mem g (k + t) hp

lemma builtChars_sub_pool (g : ℕ → ℕ) (cfg : Config)
    (hp : (assemble g cfg initTable).pool ≠ []) :
    builtChars initTable g cfg ⊆ (assemble g cfg initTable).pool := by
  intro c hc
  rcases List.mem_append.mp hc with h | h
  · exact assemble_req_sub_pool g cfg h
  · exact fillChars_sub g _ _ _ hp h

lemma builtChars_length (g : ℕ → ℕ) (cfg : Config) (t : CharTable)
    (h4 : 4 ≤ cfg.length) :
    ((builtChars t g cfg).length : Int) = cfg.length := by
  have hle := assemble_required_length_le g cfg t
  simp only [builtChars, List.length_append, fillChars, List.length_map, List.length_range]
  omega

lemma shuffledChars_perm (t : CharTable) (g : ℕ → ℕ) (cfg : Config) :
    List.Perm (shuffledChars t g cfg) (builtChars t g cfg) :=
  fyShuffle_perm g _ (builtChars t g cfg)

/-! ### Success and failure of `generatePassword` -/

lemma generatePassword_ok (g : ℕ → ℕ) (cfg : Config)
    (h4 : 4 ≤ cfg.length) (h128 : cfg.length ≤ 128)
    (hsome : cfg.useUppercase = true ∨ cfg.useLowercase = true ∨
      cfg.useNumbers = true ∨ cfg.useSymbols = true) :
    generatePassword g cfg = .ok (String.mk (shuffledChars initTable g cfg)) := by
  have hpool := assemble_pool_ne g cfg hsome
  simp only [generatePassword, generatePasswordSt, generatePasswordT]
  rw [if_neg (by omega), if_neg hpool]

lemma generatePassword_len_err (g : ℕ → ℕ) (cfg : Config)
    (h : cfg.length < 4 ∨ 128 < cfg.length) :
    generatePassword g cfg = .error lengthErr := by
  simp only [generatePassword, generatePasswordSt, generatePasswordT]
  rw [if_pos h]

lemma generatePassword_class_err (g : ℕ → ℕ) (cfg : Config)
    (h4 : 4 ≤ cfg.length) (h128 : cfg.length ≤ 128)
    (h1 : cfg.useUppercase = false) (h2 : cfg.useLowercase = false)
    (h3 : cfg.useNumbers = false) (hsy : cfg.useSymbols = false) :
    generatePassword g cfg = .error classErr := by
  simp only [generatePassword, generatePasswordSt, generatePasswordT]
  rw [if_neg (by omega), assemble_all_false g cfg initTable h1 h2 h3 hsy, if_pos rfl]

lemma toList_mk (l : List Char) : (String.mk l).toList = l := rfl

lemma length_mk (l : List Char) : (String.mk l).length = l.length := rfl

lemma mem_filterAmb (c : Char) (s : List Char) (h : c ∈ filterAmb s) :
    c ∈ s ∧ c ∉ ambiguousChars := by
  rw [filterAmb, List.mem_filter] at h
  refine ⟨h.1, ?_⟩
  simpa using h.2

/-- Every character of an effective class is in the canonical class, and when
`excl` is set it is not ambiguous. -/
lemma mem_effTable_upper (excl : Bool) (c : Char)
    (h : c ∈ (effTable excl initTable).uppercase) :
    c ∈ uppercaseSet ∧ (excl = true → c ∉ ambiguousChars) := by
  cases excl with
  | false => exact ⟨h, by simp⟩
  | true =>
    obtain ⟨h1, h2⟩ := mem_filterAmb c uppercaseSet h
    exact ⟨h1, fun _ => h2⟩

lemma mem_effTable_lower (excl : Bool) (c : Char)
    (h : c ∈ (effTable excl initTable).lowercase) :
    c ∈ lowercaseSet ∧ (excl = true → c ∉ ambiguousChars) := by
  cases excl with
  | false => exact ⟨h, by simp⟩
  | true =>
    obtain ⟨h1, h2⟩ := mem_filterAmb c lowercaseSet h
    exact ⟨h1, fun _ => h2⟩

lemma mem_effTable_numbers (excl : Bool) (c : Char)
    (h : c ∈ (effTable excl initTable).numbers) :
    c ∈ numbersSet ∧ (excl = true → c ∉ ambiguousChars) := by
  cases excl with
  | false => exact ⟨h, by simp⟩
  | true =>
    obtain ⟨h1, h2⟩ := mem_filterAmb c numbersSet h
    exact ⟨h1, fun _ => h2⟩

lemma mem_effTable_symbols (excl : Bool) (c : Char)
    (h : c ∈ (effTable excl initTable).symbols) :
    c ∈ symbolsSet ∧ (excl = true → c ∉ ambiguousChars) := by
  cases excl with
  | false => exact ⟨h, by simp⟩
  | true =>
    obtain ⟨h1, h2⟩ := mem_filterAmb c symbolsSet h
    exact ⟨h1, fun _ => h2⟩

/-- The four canonical classes are pairwise disjoint. -/
lemma disj_up_low : ∀ c ∈ uppercaseSet, c ∉ lowercaseSet := by decide

lemma disj_up_num : ∀ c ∈ uppercaseSet, c ∉ numbersSet := by decide

lemma disj_up_sym : ∀ c ∈ uppercaseSet, c ∉ symbolsSet := by decide

lemma disj_low_num : ∀ c ∈ lowercaseSet, c ∉ numbersSet := by decide

lemma disj_low_sym : ∀ c ∈ lowercaseSet, c ∉ symbolsSet := by decide

lemma disj_num_sym : ∀ c ∈ numbersSet, c ∉ symbolsSet := by decide

lemma mem_shuffled_iff (g : ℕ → ℕ) (cfg : Config) (c : Char) :
    c ∈ shuffledChars initTable g cfg ↔ c ∈ builtChars initTable g cfg :=
  (shuffledChars_perm initTable g cfg).mem_iff

/-! ### Claims -/

/-- C1: for every config with length in [4,128] and at least one `use*` flag
set, every selected class is represented at least once in the password
returned by `generatePassword` — even when the length equals the number of
selected classes. -/
theorem claim_C1_class_diversity (g : ℕ → ℕ) (cfg : Config)
    (h4 : 4 ≤ cfg.length) (h128 : cfg.length ≤ 128)
    (hsome : cfg.useUppercase = true ∨ cfg.useLowercase = true ∨
      cfg.useNumbers = true ∨ cfg.useSymbols = true) :
    ∃ p, generatePassword g cfg = .ok p ∧
      (cfg.useUppercase = true → ∃ c ∈ p.toList, c ∈ uppercaseSet) ∧
      (cfg.useLowercase = true → ∃ c ∈ p.toList, c ∈ lowercaseSet) ∧
      (cfg.useNumbers = true → ∃ c ∈ p.toList, c ∈ numbersSet) ∧
      (cfg.useSymbols = true → ∃ c ∈ p.toList, c ∈ symbolsSet) := by
  refine ⟨_, generatePassword_ok g cfg h4 h128 hsome, ?_, ?_, ?_, ?_⟩
  · intro hu
    obtain ⟨c, hc, hcs⟩ := assemble_required_upper g cfg hu
    exact ⟨c, (mem_shuffled_iff g cfg c).mpr (List.mem_append.mpr (Or.inl hc)),
      (mem_effTable_upper _ c hcs).1⟩
  · intro hl
    obtain ⟨c, hc, hcs⟩ := assemble_required_lower g cfg hl
    exact ⟨c, (mem_shuffled_iff g cfg c).mpr (List.mem_append.mpr (Or.inl hc)),
      (mem_effTable_lower _ c hcs).1⟩
  · intro hn
    obtain ⟨c, hc, hcs⟩ := assemble_required_numbers g cfg hn
    exact ⟨c, (mem_shuffled_iff g cfg c).mpr (List.mem_append.mpr (Or.inl hc)),
      (mem_effTable_numbers _ c hcs).1⟩
  · intro hs
    obtain ⟨c, hc, hcs⟩ := assemble_required_symbols g cfg hs
    exact ⟨c, (mem_shuffled_iff g cfg c).mpr (List.mem_append.mpr (Or.inl hc)),
      (mem_effTable_symbols _ c hcs).1⟩

/-- C1 witness at the boundary config (length 4, all four classes). -/
theorem claim_C1_witness :
    (4 ≤ cfgFour.length ∧ cfgFour.length ≤ 128 ∧ cfgFour.useUppercase = true) ∧
    (∃ p, generatePassword (fun n => n) cfgFour = .ok p ∧
      (cfgFour.useUppercase = true → ∃ c ∈ p.toList, c ∈ uppercaseSet) ∧
      (cfgFour.useLowercase = true → ∃ c ∈ p.toList, c ∈ lowercaseSet) ∧
      (cfgFour.useNumbers = true → ∃ c ∈ p.toList, c ∈ numbersSet) ∧
      (cfgFour.useSymbols = true → ∃ c ∈ p.toList, c ∈ symbolsSet)) :=
  ⟨⟨by decide, by decide, rfl⟩,
    claim_C1_class_diversity (fun n => n) cfgFour (by decide) (by decide) (Or.inl rfl)⟩

/-- C2: for every config with length in [4,128] and at least one `use*` flag
set, the returned password has exactly `length` characters. -/
theorem claim_C2_exact_length (g : ℕ → ℕ) (cfg : Config)
    (h4 : 4 ≤ cfg.length) (h128 : cfg.length ≤ 128)
    (hsome : cfg.useUppercase = true ∨ cfg.useLowercase = true ∨
      cfg.useNumbers = true ∨ cfg.useSymbols = true) :
    ∃ p, generatePassword g cfg = .ok p ∧ (p.length : Int) = cfg.length := by
  refine ⟨_, generatePassword_ok g cfg h4 h128 hsome, ?_⟩
  show (((shuffledChars initTable g cfg).length : ℕ) : Int) = cfg.length
  rw [(shuffledChars_perm initTable g cfg).length_eq]
  exact builtChars_length g cfg initTable h4

/-- C2 witness at the boundary config. -/
theorem claim_C2_witness :
    (4 ≤ cfgFour.length ∧ cfgFour.length ≤ 128) ∧
    (∃ p, generatePassword (fun n => n) cfgFour = .ok p ∧ (p.length : Int) = cfgFour.length) :=
  ⟨⟨by decide, by decide⟩,
    claim_C2_exact_length (fun n => n) cfgFour (by decide) (by decide) (Or.inl rfl)⟩

/-- C6: with `excludeAmbiguous` set, no character of the ambiguous set
appears anywhere in the returned password. -/
theorem claim_C6_exclude_ambiguous (g : ℕ → ℕ) (cfg : Config)
    (h4 : 4 ≤ cfg.length) (h128 : cfg.length ≤ 128)
    (hsome : cfg.useUppercase = true ∨ cfg.useLowercase = true ∨
      cfg.useNumbers = true ∨ cfg.useSymbols = true)
    (hex : cfg.excludeAmbiguous = true) :
    ∃ p, generatePassword g cfg = .ok p ∧ ∀ c ∈ p.toList, c ∉ ambiguousChars := by
  refine ⟨_, generatePassword_ok g cfg h4 h128 hsome, ?_⟩
  intro c hc
  have hb : c ∈ builtChars initTable g cfg := (mem_shuffled_iff g cfg c).mp hc
  have hpool := builtChars_sub_pool g cfg (assemble_pool_ne g cfg hsome) hb
  rcases mem_assemble_pool g cfg c hpool with ⟨_, h⟩ | ⟨_, h⟩ | ⟨_, h⟩ | ⟨_, h⟩
  · exact (mem_effTable_upper _ c h).2 hex
  · exact (mem_effTable_lower _ c h).2 hex
  · exact (mem_effTable_numbers _ c h).2 hex
  · exact (mem_effTable_symbols _ c h).2 hex

/-- C6 witness: length 8, all classes, ambiguous excluded. -/
theorem claim_C6_witness :
    ((4:Int) ≤ 8 ∧ (8:Int) ≤ 128) ∧
    (∃ p, generatePassword (fun n => n) ⟨8, true, true, true, true, true⟩ = .ok p ∧
      ∀ c ∈ p.toList, c ∉ ambiguousChars) :=
  ⟨⟨by decide, by decide⟩,
    claim_C6_exclude_ambiguous (fun n => n) ⟨8, true, true, true, true, true⟩
      (by decide) (by decide) (Or.inl rfl) rfl⟩

/-- C7: `generatePassword` fails with the length error for every out-of-range
length regardless of the flags, and with the class error when the length is in
range and every flag is false; in both cases the result is the same for every
random tape (no randomness is consumed) and carries no partial password. -/
theorem claim_C7_validation_errors (cfg : Config) :
    ((cfg.length < 4 ∨ 128 < cfg.length) →
      ∀ g : ℕ → ℕ, generatePassword g cfg = .error lengthErr) ∧
    (4 ≤ cfg.length → cfg.length ≤ 128 → cfg.useUppercase = false →
      cfg.useLowercase = false → cfg.useNumbers = false → cfg.useSymbols = false →
      ∀ g : ℕ → ℕ, generatePassword g cfg = .error classErr) :=
  ⟨fun h g => generatePassword_len_err g cfg h,
   fun h4 h128 h1 h2 h3 hs g => generatePassword_class_err g cfg h4 h128 h1 h2 h3 hs⟩

/-- C7 witness: length 3 fails with the length error; length 16 with no class
selected fails with the class error. -/
theorem claim_C7_witness :
    ((3:Int) < 4 ∨ 128 < (3:Int)) ∧
    generatePassword (fun n => n) ⟨3, true, true, true, true, false⟩ = .error lengthErr ∧
    generatePassword (fun n => n) ⟨16, false, false, false, false, false⟩ = .error classErr :=
  ⟨Or.inl (by decide),
   (claim_C7_validation_errors ⟨3, true, true, true, true, false⟩).1
     (Or.inl (by decide)) (fun n => n),
   (claim_C7_validation_errors ⟨16, false, false, false, false, false⟩).2
     (by decide) (by decide) rfl rfl rfl rfl (fun n => n)⟩

/-- C8: the shuffle is the Fisher–Yates loop — at each step it swaps position
`i + 1` with a drawn index that is at most `i + 1` — and consequently the
returned password is a permutation of the required characters followed by the
filler characters. -/
theorem claim_C8_shuffle_permutation (g : ℕ → ℕ) (cfg : Config)
    (h4 : 4 ≤ cfg.length) (h128 : cfg.length ≤ 128)
    (hsome : cfg.useUppercase = true ∨ cfg.useLowercase = true ∨
      cfg.useNumbers = true ∨ cfg.useSymbols = true) :
    (∀ (k : ℕ) (l : List Char) (i : ℕ),
      fyStep g k l (i + 1) = fyStep g (k + 1) (swapList l (i + 1) (g k % (i + 2))) i ∧
      g k % (i + 2) ≤ i + 1) ∧
    ∃ p, generatePassword g cfg = .ok p ∧
      List.Perm p.toList (builtChars initTable g cfg) := by
  refine ⟨fun k l i => ⟨rfl, ?_⟩,
    _, generatePassword_ok g cfg h4 h128 hsome, shuffledChars_perm initTable g cfg⟩
  have := Nat.mod_lt (g k) (show 0 < i + 2 by omega)
  omega

/-- C8 witness at the boundary config. -/
theorem claim_C8_witness :
    (4 ≤ cfgFour.length ∧ cfgFour.length ≤ 128) ∧
    ((∀ (k : ℕ) (l : List Char) (i : ℕ),
      fyStep (fun n => n) k l (i + 1) =
        fyStep (fun n => n) (k + 1) (swapList l (i + 1) (k % (i + 2))) i ∧
      k % (i + 2) ≤ i + 1) ∧
    ∃ p, generatePassword (fun n => n) cfgFour = .ok p ∧
      List.Perm p.toList (builtChars initTable (fun n => n) cfgFour)) :=
  ⟨⟨by decide, by decide⟩,
    claim_C8_shuffle_permutation (fun n => n) cfgFour (by decide) (by decide) (Or.inl rfl)⟩

/-- C10: every character of the returned password lies in one of the selected
(filtered) classes, and no character of an unselected class ever appears. -/
theorem claim_C10_chars_from_selected (g : ℕ → ℕ) (cfg : Config)
    (h4 : 4 ≤ cfg.length) (h128 : cfg.length ≤ 128)
    (hsome : cfg.useUppercase = true ∨ cfg.useLowercase = true ∨
      cfg.useNumbers = true ∨ cfg.useSymbols = true) :
    ∃ p, generatePassword g cfg = .ok p ∧
      (∀ c ∈ p.toList,
        (cfg.useUppercase = true ∧ c ∈ (effTable cfg.excludeAmbiguous initTable).uppercase) ∨
        (cfg.useLowercase = true ∧ c ∈ (effTable cfg.excludeAmbiguous initTable).lowercase) ∨
        (cfg.useNumbers = true ∧ c ∈ (effTable cfg.excludeAmbiguous initTable).numbers) ∨
        (cfg.useSymbols = true ∧ c ∈ (effTable cfg.excludeAmbiguous initTable).symbols)) ∧
      (cfg.useUppercase = false → ∀ c ∈ p.toList, c ∉ uppercaseSet) ∧
      (cfg.useLowercase = false → ∀ c ∈ p.toList, c ∉ lowercaseSet) ∧
      (cfg.useNumbers = false → ∀ c ∈ p.toList, c ∉ numbersSet) ∧
      (cfg.useSymbols = false → ∀ c ∈ p.toList, c ∉ symbolsSet) := by
  have hpoolne := assemble_pool_ne g cfg hsome
  have hmem : ∀ c, c ∈ shuffledChars initTable g cfg →
      (cfg.useUppercase = true ∧ c ∈ (effTable cfg.excludeAmbiguous initTable).uppercase) ∨
      (cfg.useLowercase = true ∧ c ∈ (effTable cfg.excludeAmbiguous initTable).lowercase) ∨
      (cfg.useNumbers = true ∧ c ∈ (effTable cfg.excludeAmbiguous initTable).numbers) ∨
      (cfg.useSymbols = true ∧ c ∈ (effTable cfg.excludeAmbiguous initTable).symbols) :=
    fun c hc => mem_assemble_pool g cfg c
      (builtChars_sub_pool g cfg hpoolne ((mem_shuffled_iff g cfg c).mp hc))
  refine ⟨_, generatePassword_ok g cfg h4 h128 hsome,
    fun c hc => hmem c hc, ?_, ?_, ?_, ?_⟩
  · intro hu c hc hcU
    rcases hmem c hc with ⟨hf, _⟩ | ⟨_, h⟩ | ⟨_, h⟩ | ⟨_, h⟩
    · simp [hu] at hf
    · exact disj_up_low c hcU (mem_effTable_lower _ c h).1
    · exact disj_up_num c hcU (mem_effTable_numbers _ c h).1
    · exact disj_up_sym c hcU (mem_effTable_symbols _ c h).1
  · intro hl c hc hcL
    rcases hmem c hc with ⟨_, h⟩ | ⟨hf, _⟩ | ⟨_, h⟩ | ⟨_, h⟩
    · exact disj_up_low c (mem_effTable_upper _ c h).1 hcL
    · simp [hl] at hf
    · exact disj_low_num c hcL (mem_effTable_numbers _ c h).1
    · exact disj_low_sym c hcL (mem_effTable_symbols _ c h).1
  · intro hn c hc hcN
    rcases hmem c hc with ⟨_, h⟩ | ⟨_, h⟩ | ⟨hf, _⟩ | ⟨_, h⟩
    · exact disj_up_num c (mem_effTable_upper _ c h).1 hcN
    · exact disj_low_num c (mem_effTable_lower _ c h).1 hcN
    · simp [hn] at hf
    · exact disj_num_sym c hcN (mem_effTable_symbols _ c h).1
  · intro hs c hc hcS
    rcases hmem c hc with ⟨_, h⟩ | ⟨_, h⟩ | ⟨_, h⟩ | ⟨hf, _⟩
    · exact disj_up_sym c (mem_effTable_upper _ c h).1 hcS
    · exact disj_low_sym c (mem_effTable_lower _ c h).1 hcS
    · exact disj_num_sym c (mem_effTable_numbers _ c h).1 hcS
    · simp [hs] at hf

/-- C10 witness: length 10, letters only. -/
theorem claim_C10_witness :
    ((4:Int) ≤ 10 ∧ (10:Int) ≤ 128) ∧
    (∃ p, generatePassword (fun n => n) ⟨10, true, true, false, false, false⟩ = .ok p ∧
      (∀ c ∈ p.toList,
        (true = true ∧ c ∈ (effTable false initTable).uppercase) ∨
        (true = true ∧ c ∈ (effTable false initTable).lowercase) ∨
        (false = true ∧ c ∈ (effTable false initTable).numbers) ∨
        (false = true ∧ c ∈ (effTable false initTable).symbols)) ∧
      (true = false → ∀ c ∈ p.toList, c ∉ uppercaseSet) ∧
      (true = false → ∀ c ∈ p.toList, c ∉ lowercaseSet) ∧
      (false = false → ∀ c ∈ p.toList, c ∉ numbersSet) ∧
      (false = false → ∀ c ∈ p.toList, c ∉ symbolsSet)) :=
  ⟨⟨by decide, by decide⟩,
    claim_C10_chars_from_selected (fun n => n) ⟨10, true, true, false, false, false⟩
      (by decide) (by decide) (Or.inl rfl)⟩

/-! ### Entropy arithmetic -/

lemma logb_two_pow (n : ℕ) : Real.logb 2 ((2:ℝ) ^ n) = n := by
  rw [Real.logb_pow, Real.logb_self_eq_one (by norm_num)]
  ring

lemma nat_mul_logb_lt (m a c : ℕ) (ha : 0 < a) (h : a ^ m < 2 ^ c) :
    (m : ℝ) * Real.logb 2 a < c := by
  have h1 : Real.logb 2 ((a:ℝ) ^ m) < Real.logb 2 ((2:ℝ) ^ c) := by
    apply Real.logb_lt_logb (by norm_num) (by positivity)
    exact_mod_cast h
  rwa [Real.logb_pow, logb_two_pow] at h1

lemma lt_nat_mul_logb (m a c : ℕ) (hc : 2 ^ c < a ^ m) :
    (c : ℝ) < (m : ℝ) * Real.logb 2 a := by
  have h1 : Real.logb 2 ((2:ℝ) ^ c) < Real.logb 2 ((a:ℝ) ^ m) := by
    apply Real.logb_lt_logb (by norm_num) (by positivity)
    exact_mod_cast hc
  rwa [logb_two_pow, Real.logb_pow] at h1

lemma entropy_digits7 : calculateEntropy "1234567" = 7 * Real.logb 2 10 := by
  have h1 : charSpace "1234567" = 10 := rfl
  have h2 : ("1234567").length = 7 := rfl
  simp only [calculateEntropy, h1, h2]
  norm_num

lemma entropy_allclasses : calculateEntropy "Aa1!Aa1!Aa1!Aa1!" = 16 * Real.logb 2 88 := by
  have h1 : charSpace "Aa1!Aa1!Aa1!Aa1!" = 88 := by decide
  have h2 : ("Aa1!Aa1!Aa1!Aa1!").length = 16 := by decide
  simp only [calculateEntropy, h1, h2]
  norm_num

lemma entropy_allclasses_ge : (80:ℝ) ≤ calculateEntropy "Aa1!Aa1!Aa1!Aa1!" := by
  rw [entropy_allclasses]
  have h := lt_nat_mul_logb 16 88 80 (by norm_num)
  have h2 : ((88:ℕ):ℝ) = (88:ℝ) := by norm_num
  rw [h2] at h
  exact_mod_cast h.le

lemma entropy_one_symbol : calculateEntropy "!" = Real.logb 2 26 := by
  have h1 : charSpace "!" = 26 := by decide
  have h2 : ("!").length = 1 := by decide
  simp only [calculateEntropy, h1, h2]
  norm_num

/-- C5 (amended): `calculateEntropy` is `length · log₂(charSpace)` where the
character space adds 26 for observed uppercase, 26 for lowercase, 10 for
digits and 26 — the symbol class cardinality, not 32 — for symbols, and the
entropy is 0 when the space is empty; `calculateEntropy "" = 0` and
`calculateEntropy "aaaa" = 4·log₂26`. -/
theorem claim_C5_entropy (p : String) :
    charSpace p = specCharSpace p ∧
    symbolsSet.length = 26 ∧
    (charSpace p = 0 → calculateEntropy p = 0) ∧
    (charSpace p ≠ 0 → calculateEntropy p = (p.length : ℝ) * Real.logb 2 (charSpace p)) ∧
    calculateEntropy "" = 0 ∧
    calculateEntropy "aaaa" = 4 * Real.logb 2 26 := by
  refine ⟨?_, by decide, fun h => by simp [calculateEntropy, h],
    fun h => by simp [calculateEntropy, h], by simp [calculateEntropy], ?_⟩
  · have hsym : ∀ c : Char, (initTable.symbols.contains c = true) ↔ (c ∈ symbolsSet) :=
      fun c => List.elem_iff
    have hlen : initTable.symbols.length = 26 := by decide
    simp only [charSpace, specCharSpace, List.any_eq_true, hsym, hlen]
  · have h1 : charSpace "aaaa" = 26 := by decide
    have h2 : ("aaaa").length = 4 := by decide
    simp only [calculateEntropy, h1, h2]
    norm_num

/-- C5 counterexample: the symbol class holds 26 characters, not 32; for the
all-symbol password "!" the code adds 26, so its entropy is
log₂26 < log₂32. -/
theorem claim_C5_counterexample :
    (("!").toList.any (fun c => initTable.symbols.contains c)) = true ∧
    initTable.symbols.length = 26 ∧
    charSpace "!" = 26 ∧ ¬ charSpace "!" = 32 ∧
    calculateEntropy "!" < Real.logb 2 32 := by
  refine ⟨by decide, by decide, by decide, by decide, ?_⟩
  rw [entropy_one_symbol]
  exact Real.logb_lt_logb (by norm_num) (by norm_num) (by norm_num)

/-- C5 witness: "aaaa" has a non-empty character space, so the closed form
applies to it. -/
theorem claim_C5_witness :
    charSpace "aaaa" ≠ 0 ∧
    calculateEntropy "aaaa" = (("aaaa").length : ℝ) * Real.logb 2 (charSpace "aaaa") :=
  ⟨by decide, (claim_C5_entropy "aaaa").2.2.2.1 (by decide)⟩

/-- C3 (amended): `assessStrength` maps entropy to label/score by the
highest-first thresholds of the code — ≥80 Very Strong/100, ≥60 Strong/80,
≥40 Moderate/60, ≥25 (not 20) Weak/40, otherwise Very Weak/20. -/
theorem claim_C3_strength_thresholds (p : String) :
    (80 ≤ calculateEntropy p →
      (assessStrength p).strength = "Very Strong" ∧ (assessStrength p).score = 100) ∧
    (60 ≤ calculateEntropy p → calculateEntropy p < 80 →
      (assessStrength p).strength = "Strong" ∧ (assessStrength p).score = 80) ∧
    (40 ≤ calculateEntropy p → calculateEntropy p < 60 →
      (assessStrength p).strength = "Moderate" ∧ (assessStrength p).score = 60) ∧
    (25 ≤ calculateEntropy p → calculateEntropy p < 40 →
      (assessStrength p).strength = "Weak" ∧ (assessStrength p).score = 40) ∧
    (calculateEntropy p < 25 →
      (assessStrength p).strength = "Very Weak" ∧ (assessStrength p).score = 20) := by
  refine ⟨fun h80 => ?_, fun h60 h80 => ?_, fun h40 h60 => ?_,
    fun h25 h40 => ?_, fun h25 => ?_⟩
  · constructor <;> simp only [assessStrength] <;> rw [if_pos h80]
  · constructor <;> simp only [assessStrength] <;>
      rw [if_neg (not_le.mpr h80), if_pos h60]
  · constructor <;> simp only [assessStrength] <;>
      rw [if_neg (not_le.mpr (by linarith)), if_neg (not_le.mpr h60), if_pos h40]
  · constructor <;> simp only [assessStrength] <;>
      rw [if_neg (not_le.mpr (by linarith)), if_neg (not_le.mpr (by linarith)),
        if_neg (not_le.mpr h40), if_pos h25]
  · constructor <;> simp only [assessStrength] <;>
      rw [if_neg (not_le.mpr (by linarith)), if_neg (not_le.mpr (by linarith)),
        if_neg (not_le.mpr (by linarith)), if_neg (not_le.mpr h25)]

/-- C3 counterexample: "1234567" has entropy 7·log₂10 ≈ 23.25, inside
[20, 40); the claim as stated (threshold 20) assigns Weak/40, but the code
assigns Very Weak/20 because its lowest threshold is 25. -/
theorem claim_C3_counterexample :
    20 ≤ calculateEntropy "1234567" ∧ calculateEntropy "1234567" < 40 ∧
    (assessStrength "1234567").strength = "Very Weak" ∧
    (assessStrength "1234567").score = 20 := by
  have he := entropy_digits7
  have hlow : (20:ℝ) ≤ 7 * Real.logb 2 10 := by
    have h := lt_nat_mul_logb 7 10 20 (by norm_num)
    have h2 : ((10:ℕ):ℝ) = (10:ℝ) := by norm_num
    rw [h2] at h
    exact_mod_cast h.le
  have hup : 7 * Real.logb 2 10 < 25 := by
    have h := nat_mul_logb_lt 7 10 25 (by norm_num) (by norm_num)
    have h2 : ((10:ℕ):ℝ) = (10:ℝ) := by norm_num
    rw [h2] at h
    exact_mod_cast h
  refine ⟨by rw [he]; linarith, by rw [he]; linarith, ?_, ?_⟩
  · simp only [assessStrength, he]
    rw [if_neg (not_le.mpr (by linarith)), if_neg (not_le.mpr (by linarith)),
      if_neg (not_le.mpr (by linarith)), if_neg (not_le.mpr hup)]
  · simp only [assessStrength, he]
    rw [if_neg (not_le.mpr (by linarith)), if_neg (not_le.mpr (by linarith)),
      if_neg (not_le.mpr (by linarith)), if_neg (not_le.mpr hup)]

/-- C3 witness: a password with entropy at least 80 gets Very Strong/100. -/
theorem claim_C3_witness :
    80 ≤ calculateEntropy "Aa1!Aa1!Aa1!Aa1!" ∧
    (assessStrength "Aa1!Aa1!Aa1!Aa1!").strength = "Very Strong" ∧
    (assessStrength "Aa1!Aa1!Aa1!Aa1!").score = 100 :=
  ⟨entropy_allclasses_ge,
   ((claim_C3_strength_thresholds "Aa1!Aa1!Aa1!Aa1!").1 entropy_allclasses_ge).1,
   ((claim_C3_strength_thresholds "Aa1!Aa1!Aa1!Aa1!").1 entropy_allclasses_ge).2⟩

/-! ### Batch generation -/

lemma mapM_ok (f : ℕ → Except String String) (w : ℕ → String)
    (h : ∀ a, f a = .ok (w a)) : ∀ l : List ℕ, l.mapM f = .ok (l.map w) := by
  intro l
  induction l with
  | nil => rfl
  | cons a t ih => rw [List.mapM_cons, h a, ih]; rfl

/-- C4 (amended): `generateMultiple` performs no validation of `count` — for
`count ≤ 0` it returns the empty list without error — and for any `count` it
returns `max count 0` passwords, the `t`-th produced by an independent
`generatePassword` call driven by its own tape `gs t`. -/
theorem claim_C4_batch (gs : ℕ → ℕ → ℕ) (count : Int) (cfg : Config)
    (h4 : 4 ≤ cfg.length) (h128 : cfg.length ≤ 128)
    (hsome : cfg.useUppercase = true ∨ cfg.useLowercase = true ∨
      cfg.useNumbers = true ∨ cfg.useSymbols = true) :
    ∃ l, generateMultiple gs count cfg = .ok l ∧ l.length = count.toNat ∧
      (count ≤ 0 → l = []) ∧
      ∀ t (ht : t < l.length), l[t] = String.mk (shuffledChars initTable (gs t) cfg) := by
  have hw : ∀ t : ℕ, generatePassword (gs t) cfg =
      .ok (String.mk (shuffledChars initTable (gs t) cfg)) :=
    fun t => generatePassword_ok (gs t) cfg h4 h128 hsome
  refine ⟨_, mapM_ok _ _ hw (List.range count.toNat), by simp, ?_, ?_⟩
  · intro hc
    have : count.toNat = 0 := by omega
    simp [this]
  · intro t ht
    simp only [List.length_map, List.length_range] at ht
    simp [ht]

/-- C4 counterexample: counts −1 and 0 do not fail with any error; the call
returns the empty list successfully instead. -/
theorem claim_C4_counterexample :
    generateMultiple (fun _ _ => 0) (-1) cfgFour = .ok [] ∧
    generateMultiple (fun _ _ => 0) 0 cfgFour = .ok [] :=
  ⟨rfl, rfl⟩

/-- C4 witness: two passwords from two independent tapes. -/
theorem claim_C4_witness :
    (4 ≤ cfgFour.length ∧ cfgFour.length ≤ 128) ∧
    (∃ l, generateMultiple (fun t n => t + n) 2 cfgFour = .ok l ∧ l.length = (2:Int).toNat ∧
      ((2:Int) ≤ 0 → l = []) ∧
      ∀ t (ht : t < l.length),
        l[t] = String.mk (shuffledChars initTable ((fun t n => t + n) t) cfgFour)) :=
  ⟨⟨by decide, by decide⟩,
    claim_C4_batch (fun t n => t + n) 2 cfgFour (by decide) (by decide) (Or.inl rfl)⟩

/-- C9: a `generatePassword` call hands back `self.char_sets` unchanged (the
ambiguous filter writes only to the line-43 copy, which it genuinely
changes), and `assessStrength` classifies symbols against the unfiltered
canonical set: '|' is filtered out of generation pools yet still counts as a
symbol in analysis. -/
theorem claim_C9_table_immutable (t : CharTable) (g : ℕ → ℕ) (cfg : Config) :
    (generatePasswordSt t g cfg).2 = t ∧
    effTable true initTable ≠ initTable ∧
    ('|' ∈ initTable.symbols ∧ '|' ∉ (effTable true initTable).symbols) ∧
    (assessStrength "|").has_symbols = true :=
  ⟨rfl, by decide, ⟨by decide, by decide⟩, by decide⟩

end PwGen
